import Mathlib

/-!
Verification development for the nanopore-tracking-app document
field-extraction pipeline.

The Python sources embedded here are:
* `src/services/submission-service/app/services/pdf_processor.py`
  (pattern-library assembler `_extract_sample_data`, text-table extractor
  `_extract_sample_table` dedup phase, text extraction
  `_extract_text_optimized`, AI merge loop in `process_file`);
* `src/services/submission-service/app/services/csv_processor.py`
  (column mapping, chunked row processing, `_extract_row_data`);
* `src/build-context-submission/app/services/pdf_processor.py`
  (structured-table extractor `_extract_table_rows` with its
  `normalize`, `get_val`, `to_float` helpers).

External collaborators (the `re` regex engine, pdfplumber/PyPDF2 page
iterators, pandas CSV reader, the AI HTTP endpoint) are modelled as
parameters: a regex search phase is passed in as its list of per-field
first match results, a PDF backend as the list of page texts it yields (or the
prefix collected before it raised), a CSV file as its header list and a
list of row lookup functions, and the AI service as an optional field
list.  Python falsiness of a page text (None or "") is encoded as `""`.
-/

namespace Nanopore

/-- A Python scalar value as it occurs in the processors' dicts:
a string, a float (modelled as `ℚ`), or a bool. -/
inductive PyVal where
  | s (v : String)
  | n (v : ℚ)
  | b (v : Bool)
deriving DecidableEq

/-- Python truthiness of a `PyVal` (`bool('') = False`, `bool(0.0) = False`). -/
def PyVal.truthy : PyVal → Bool
  | .s v => v ≠ ""
  | .n v => v ≠ 0
  | .b v => v

/-- Truthiness of `getattr(obj, key, None)` / `dict.get`:
a missing key is `None`, which is falsy. -/
def otruthy : Option PyVal → Bool
  | none => false
  | some v => v.truthy

/-- `pref p l` : `p` is a leading segment of `l` (helper for the
substring test that embeds Python's `in` operator on strings). -/
def pref : List Char → List Char → Bool
  | [], _ => true
  | _ :: _, [] => false
  | a :: as, b :: bs => a = b && pref as bs

/-- `subList p l` : `p` occurs contiguously inside `l`. -/
def subList (p : List Char) : List Char → Bool
  | [] => pref p []
  | l@(_ :: rest) => pref p l || subList p rest

/-- Python's `needle in haystack` substring test. -/
def strSub (haystack needle : String) : Bool :=
  subList needle.toList haystack.toList

/-- ASCII lowercasing of a string, matching Python `str.lower()` on the
ASCII-plus-micro-sign alphabets the processors use (U+00B5 is already
lowercase in Python). -/
def lowerStr (s : String) : String := String.mk (s.toList.map Char.toLower)

/-- Strip leading and trailing whitespace from a character list. -/
def trimChars (cs : List Char) : List Char :=
  ((cs.dropWhile Char.isWhitespace).reverse.dropWhile Char.isWhitespace).reverse

/-- Python `str.strip()` (whitespace at both ends removed). -/
def trimStr (s : String) : String := String.mk (trimChars s.toList)

/-- Replace all non-overlapping occurrences of `old` by `new`, left to
right.  Structural recursion on a fuel that starts at the list length:
each step consumes at least one character (`max old.length 1`), so the
fuel never runs out on the initial call; every `old` the sources pass
is non-empty, where `max old.length 1 = old.length`. -/
def replGo (old new : List Char) : ℕ → List Char → List Char
  | 0, l => l
  | _, [] => []
  | fuel + 1, c :: rest =>
    if pref old (c :: rest) then
      new ++ replGo old new fuel ((c :: rest).drop (max old.length 1))
    else c :: replGo old new fuel rest

/-- Python `str.replace(old, new)`. -/
def replaceStr (s old new : String) : String :=
  String.mk (replGo old.toList new.toList s.toList.length s.toList)

/-- Python `sep.join(parts)`. -/
def joinStr (sep : String) : List String → String
  | [] => ""
  | [x] => x
  | x :: y :: rest => x ++ sep ++ joinStr sep (y :: rest)

/-- Numeric value of a list of decimal digits. -/
def digitsToNat (cs : List Char) : ℕ :=
  cs.foldl (fun a c => a * 10 + (c.toNat - '0'.toNat)) 0

/-- Parse a non-empty all-digit character list. -/
def parseUDigits (cs : List Char) : Option ℕ :=
  if cs ≠ [] ∧ cs.all Char.isDigit then some (digitsToNat cs) else none

/-- Split a character list at the first character satisfying `p`;
returns the part before it and, when found, the part after it. -/
def splitFirst (p : Char → Bool) : List Char → List Char × Option (List Char)
  | [] => ([], none)
  | a :: rest =>
    if p a then ([], some rest)
    else
      let (l, r) := splitFirst p rest
      (a :: l, r)

/-- Parse an unsigned decimal mantissa (`123`, `1.5`, `.5`, `1.`),
rejecting empty and malformed forms as Python `float()` does. -/
def parseMantissa (cs : List Char) : Option ℚ :=
  match splitFirst (fun c => c = '.') cs with
  | (intPart, none) => (parseUDigits intPart).map (fun n => (n : ℚ))
  | (intPart, some fracPart) =>
    if (intPart ≠ [] ∨ fracPart ≠ []) ∧ intPart.all Char.isDigit ∧
        fracPart.all Char.isDigit then
      some ((digitsToNat intPart : ℚ) +
        (digitsToNat fracPart : ℚ) / (10 : ℚ) ^ fracPart.length)
    else none

/-- Parse an optionally signed all-digit exponent. -/
def parseExp (cs : List Char) : Option ℤ :=
  match cs with
  | '+' :: r => (parseUDigits r).map (fun n => (n : ℤ))
  | '-' :: r => (parseUDigits r).map (fun n => -(n : ℤ))
  | r => (parseUDigits r).map (fun n => (n : ℤ))

/-- Unsigned part of the float grammar: mantissa with optional
`e`/`E` exponent. -/
def pyFloatUnsigned (cs : List Char) : Option ℚ :=
  match splitFirst (fun c => c = 'e' || c = 'E') cs with
  | (mant, none) => parseMantissa mant
  | (mant, some ex) =>
    match parseMantissa mant, parseExp ex with
    | some m, some e => some (m * (10 : ℚ) ^ e)
    | _, _ => none

/-- Model of Python `float(str)` on the sign/decimal/exponent forms the
pipeline encounters (whitespace is stripped as `float` does; the exotic
accepts `inf`, `nan` and `_` digit separators are outside the model).
`none` stands for a raised `ValueError`. -/
def pyFloat? (s : String) : Option ℚ :=
  match trimChars s.toList with
  | '+' :: r => pyFloatUnsigned r
  | '-' :: r => (pyFloatUnsigned r).map Neg.neg
  | r => pyFloatUnsigned r

/-- Python dict assignment `m[k] = v`: replaces the binding in place or
appends a new one. -/
def dset (m : List (String × PyVal)) (k : String) (v : PyVal) :
    List (String × PyVal) :=
  match m with
  | [] => [(k, v)]
  | (k', v') :: rest =>
    if k' = k then (k, v) :: rest else (k', v') :: dset rest k v

/-- Python `dict.setdefault(k, v)`: inserts only when the key is absent. -/
def dsetdefault (m : List (String × PyVal)) (k : String) (v : PyVal) :
    List (String × PyVal) :=
  if (m.lookup k).isSome then m else dset m k v

theorem lookup_dset_self (m : List (String × PyVal)) (k : String) (v : PyVal) :
    (dset m k v).lookup k = some v := by
  induction m with
  | nil => simp [dset]
  | cons hd tl ih =>
    obtain ⟨k', v'⟩ := hd
    by_cases h : k' = k
    · simp [dset, h]
    · simp [dset, h, List.lookup, beq_false_of_ne (Ne.symm h), ih]

theorem lookup_dset_ne (m : List (String × PyVal)) (k k' : String) (v : PyVal)
    (h : k' ≠ k) : (dset m k v).lookup k' = m.lookup k' := by
  induction m with
  | nil => simp [dset, List.lookup, beq_false_of_ne h]
  | cons hd tl ih =>
    obtain ⟨k₀, v₀⟩ := hd
    by_cases h0 : k₀ = k
    · subst h0
      simp [dset, List.lookup, beq_false_of_ne h]
    · by_cases h1 : k' = k₀
      · subst h1
        simp [dset, h0, List.lookup]
      · simp [dset, h0, List.lookup, beq_false_of_ne h1, ih]

theorem lookup_dsetdefault_present (m : List (String × PyVal)) (k : String)
    (v : PyVal) (h : (m.lookup k).isSome) : dsetdefault m k v = m := by
  simp [dsetdefault, h]

theorem lookup_dsetdefault_absent (m : List (String × PyVal)) (k : String)
    (v : PyVal) (h : m.lookup k = none) :
    (dsetdefault m k v).lookup k = some v := by
  simp [dsetdefault, h, lookup_dset_self]

theorem lookup_dsetdefault_isSome (m : List (String × PyVal)) (k : String)
    (v : PyVal) : ((dsetdefault m k v).lookup k).isSome := by
  by_cases h : (m.lookup k).isSome
  · simp [dsetdefault, h]
  · simp only [dsetdefault]
    rw [if_neg h]
    simp [lookup_dset_self]

theorem lookup_dsetdefault_ne (m : List (String × PyVal)) (k k' : String)
    (v : PyVal) (h : k' ≠ k) :
    (dsetdefault m k v).lookup k' = m.lookup k' := by
  by_cases hp : (m.lookup k).isSome
  · simp [dsetdefault, hp]
  · simp only [dsetdefault]
    rw [if_neg hp]
    exact lookup_dset_ne m k k' v h

/-! ## submission-service PDF processor: pattern-library assembler

Embeds `PDFProcessor._extract_sample_data` of
`src/services/submission-service/app/services/pdf_processor.py`.
The regex search phase (`pattern.search(text)` over the compiled
pattern dict) is an external-library step; it is passed in as the list
of `(field, first captured group)` pairs it produced, in pattern-dict
order with distinct fields. -/

/-- The two numeric fields of the pattern library
(`if field in ['concentration', 'volume']`). -/
def numericFields : List String := ["concentration", "volume"]

/-- One iteration of the dict-building loop of `_extract_sample_data`:
the matched field's captured value is stripped; numeric fields are
float-converted, a failed conversion dropping the field; others are
stored as strings. -/
def pdfStep (data : List (String × PyVal)) (fv : String × String) :
    List (String × PyVal) :=
  if fv.1 ∈ numericFields then
    match pyFloat? (trimStr fv.2) with
    | some q => dset data fv.1 (.n q)
    | none => data
  else dset data fv.1 (.s (trimStr fv.2))

/-- The dict-building loop of `_extract_sample_data`. -/
def buildPdfData (fieldMatches : List (String × String)) : List (String × PyVal) :=
  fieldMatches.foldl pdfStep []

/-- A row of the text-based sample table built by
`_extract_sample_table` (a Python dict; absent keys are `none`). -/
structure TextTableRow where
  sample_name : String
  volume : Option ℚ := none
  qubit_conc : Option ℚ := none
  nanodrop_conc : Option ℚ := none
  concentration : Option ℚ := none
  sample_index : Option String := none
deriving DecidableEq

/-- The dedup phase ending `_extract_sample_table`: keep the first row
per `sample_name`, dropping rows whose name is falsy (`if name and name
not in seen_names`). `seen` is the `seen_names` set. -/
def dedupGo (seen : List String) : List TextTableRow → List TextTableRow
  | [] => []
  | s :: rest =>
    if s.sample_name ≠ "" ∧ s.sample_name ∉ seen then
      s :: dedupGo (s.sample_name :: seen) rest
    else dedupGo seen rest

/-- `_extract_sample_table`, parameterized by the row list `collected`
that its regex phase accumulated (fieldMatches of the first row pattern that
produced any, in match order, followed by the special-entry fieldMatches);
the function's own final step is the dedup. -/
def extractSampleTable (collected : List TextTableRow) : List TextTableRow :=
  dedupGo [] collected

/-- The canonical output record: `SampleData(**data)`.  The pydantic
model module (`app/models/schemas.py`) is not under `src/`; per the
spec (§3) it is the union of the scalar fields (kept here as the dict
`fields`, unset fields `none`), an optional `sample_table`, and a
free-form `metadata` map. -/
structure SampleRec where
  fields : List (String × PyVal)
  sample_table : List TextTableRow := []
  metadata : List (String × String) := []
deriving DecidableEq

/-- The acceptance-gate key list of `_extract_sample_data`. -/
def pdfGateKeys : List String :=
  ["sample_name", "submitter_name", "quote_identifier", "lab_name"]

/-- `PDFProcessor._extract_sample_data`: builds the field dict, attaches
the table rows and metadata, gates on the four identity keys, and fills
the three defaults with `setdefault`. -/
def extractSampleData (fieldMatches : List (String × String))
    (tableRows : List TextTableRow) (metaPairs : List (String × String)) :
    Option SampleRec :=
  let data := buildPdfData fieldMatches
  if pdfGateKeys.any (fun k => (data.lookup k).isSome) then
    let data := dsetdefault data "sample_name"
      ((data.lookup "quote_identifier").getD (.s "Unknown"))
    let data := dsetdefault data "submitter_name" (.s "Unknown")
    let data := dsetdefault data "submitter_email" (.s "unknown@example.com")
    some { fields := data, sample_table := tableRows, metadata := metaPairs }
  else none

/-! ## submission-service PDF processor: AI merge and process_file -/

/-- The merge loop of `process_file`: for each AI-extracted `(key,
value)`, `setattr` only when the heuristic attribute is falsy and the
AI value is truthy (`if not getattr(sample_data, key, None) and
value`). -/
def mergeAi (fields : List (String × PyVal)) (ai : List (String × PyVal)) :
    List (String × PyVal) :=
  ai.foldl
    (fun m kv =>
      if otruthy (m.lookup kv.1) = false ∧ kv.2.truthy then dset m kv.1 kv.2
      else m)
    fields

/-- Modelled from the spec: the AI branch trigger
`len(sample_data.__dict__) < 5` reads the pydantic model's attribute
dict, and `app/models/schemas.py` is not under `src/`; spec §4.7 gives
the trigger as "fewer than five populated fields". -/
def lowCoverage (rec : SampleRec) : Bool := rec.fields.length < 5

/-- `ProcessingStatus` of the (missing) schemas module: the spec's
status values `completed`/`failed`. -/
inductive ProcessingStatus where
  | completed
  | failed
deriving DecidableEq

/-- The slice of `ProcessingResult` the claims inspect. -/
structure ProcResult where
  status : ProcessingStatus
  message : String
  data : List SampleRec := []
  errors : List String := []
  warnings : List String := []
deriving DecidableEq

/-- `PDFProcessor.process_file`, after text extraction.  `text` is the
value `_extract_text_optimized` returned (`none` when it raised, caught
by the outer handler); `ai` is what `_extract_with_ai` returned when
invoked (`none` for unavailable / non-200 / empty).  The exception text
interpolated into the failure message is abstracted away. -/
def processFilePdf (text : Option String) (fieldMatches : List (String × String))
    (tableRows : List TextTableRow) (metaPairs : List (String × String))
    (ai : Option (List (String × PyVal))) (filename : String) : ProcResult :=
  match text with
  | none =>
    { status := .failed, message := "Failed to process PDF",
      errors := ["exception"] }
  | some t =>
    if t = "" then
      { status := .failed, message := "No text content found in PDF",
        errors := ["PDF appears to be empty or contains only images"] }
    else
      let sd := extractSampleData fieldMatches tableRows metaPairs
      let sd :=
        match sd, ai with
        | some rec, some aiData =>
          if lowCoverage rec then
            some { rec with fields := mergeAi rec.fields aiData }
          else some rec
        | some rec, none => some rec
        | none, some aiData => some { fields := aiData }
        | none, none => none
      match sd with
      | some rec =>
        { status := .completed,
          message := "Successfully processed PDF: " ++ filename,
          data := [rec] }
      | none =>
        { status := .completed,
          message := "PDF processed but no sample data found",
          warnings := ["No recognizable sample data patterns found"] }

/-! ## submission-service PDF processor: text extraction

Embeds `PDFProcessor._extract_text_optimized`.  A backend run (the
pdfplumber page loop, or the PyPDF2 page loop) either completes,
yielding one text per document page (`""` for a falsy `extract_text()`
result, which the loop skips), or raises partway, having appended the
`collected` truthy page texts after examining `processed` pages. -/

/-- Outcome of one PDF backend over the document. -/
inductive BackendOutcome where
  | ok (pages : List String)
  | failAfter (processed : ℕ) (collected : List String)
deriving DecidableEq

/-- The log/warning events `_extract_text_optimized` can emit
(`logger.warning` / `logger.error` calls, in order). -/
inductive PdfLog where
  | truncWarn
  | plumberFailed
  | bothFailed
deriving DecidableEq

/-- What `_extract_text_optimized` produced: the final `text_parts`
list, the joined text (`none` when the function re-raised), its log
events, and how many pages each backend's loop examined. -/
structure ExtractOutcome where
  parts : List String
  text : Option String
  logs : List PdfLog
  primaryProcessed : ℕ
  secondaryProcessed : ℕ
deriving DecidableEq

/-- The page loop shared by both backends: pages at index `≥ max_pages`
are never examined (`if i >= self.max_pages: break`), and only truthy
page texts are appended. -/
def collectPages (maxPages : ℕ) (pages : List String) : List String :=
  (pages.take maxPages).filter (fun t => decide (t ≠ ""))

/-- `PDFProcessor._extract_text_optimized`: try pdfplumber; on any
raised error keep the `text_parts` collected so far (the list is not
reset) and append what the PyPDF2 loop yields; if that also raises, the
error propagates.  The truncation warning is logged only by the
pdfplumber loop; the PyPDF2 loop truncates silently. -/
def extractTextOptimized (maxPages : ℕ)
    (primary secondary : BackendOutcome) : ExtractOutcome :=
  match primary with
  | .ok pages =>
    let parts := collectPages maxPages pages
    { parts := parts,
      text := some (joinStr "\n\n" parts),
      logs := if maxPages < pages.length then [.truncWarn] else [],
      primaryProcessed := min pages.length maxPages,
      secondaryProcessed := 0 }
  | .failAfter p c =>
    match secondary with
    | .ok pages2 =>
      let parts := c ++ collectPages maxPages pages2
      { parts := parts,
        text := some (joinStr "\n\n" parts),
        logs := [.plumberFailed],
        primaryProcessed := p,
        secondaryProcessed := min pages2.length maxPages }
    | .failAfter p2 _ =>
      { parts := c, text := none, logs := [.plumberFailed, .bothFailed],
        primaryProcessed := p, secondaryProcessed := p2 }

/-! ## submission-service CSV processor

Embeds `CSVProcessor` of
`src/services/submission-service/app/services/csv_processor.py`.
A parsed CSV row is its cell lookup by column name (`row.get(col)`;
`none` models a missing/NaN cell, `pd.notna` false). -/

/-- `CSVProcessor.required_columns`. -/
def requiredColumns : List (String × List String) :=
  [("sample_name", ["sample_name", "sample", "name", "id"]),
   ("submitter_name", ["submitter_name", "submitter", "contact"]),
   ("submitter_email", ["email", "submitter_email", "contact_email"]),
   ("concentration", ["concentration", "conc"]),
   ("volume", ["volume", "vol"]),
   ("organism", ["organism", "species"]),
   ("buffer", ["buffer", "solution"])]

/-- `CSVProcessor._map_columns`: each canonical field maps to the first
CSV column whose lowercased, stripped header contains one of the
field's candidate substrings; unmatched fields are absent. -/
def mapColumns (csvColumns : List String) : List (String × String) :=
  requiredColumns.filterMap
    (fun fc =>
      (csvColumns.find?
        (fun col => fc.2.any (fun name => strSub (trimStr (lowerStr col)) name))).map
        (fun col => (fc.1, col)))

/-- One iteration of the dict-building loop of `_extract_row_data`:
missing/NaN cells are skipped, numeric fields are float-converted with
a failed conversion dropping the field, other present cells are stored
stripped. -/
def csvStep (row : String → Option String) (data : List (String × PyVal))
    (fc : String × String) : List (String × PyVal) :=
  match row fc.2 with
  | none => data
  | some value =>
    if fc.1 ∈ numericFields then
      match pyFloat? value with
      | some q => dset data fc.1 (.n q)
      | none => data
    else dset data fc.1 (.s (trimStr value))

/-- The dict-building loop of `_extract_row_data`. -/
def buildCsvData (row : String → Option String)
    (columnMapping : List (String × String)) : List (String × PyVal) :=
  columnMapping.foldl (csvStep row) []

/-- `CSVProcessor._extract_row_data`: gate on `sample_name` or
`submitter_name`, then fill the three defaults with `setdefault`. -/
def extractRowData (row : String → Option String)
    (columnMapping : List (String × String)) : Option SampleRec :=
  let data := buildCsvData row columnMapping
  if (data.lookup "sample_name").isSome ∨
      (data.lookup "submitter_name").isSome then
    let data := dsetdefault data "sample_name" (.s "Unknown")
    let data := dsetdefault data "submitter_name" (.s "Unknown")
    let data := dsetdefault data "submitter_email" (.s "unknown@example.com")
    some { fields := data }
  else none

/-- `pd.read_csv(..., chunksize=c)`: the data rows in successive chunks
of `c` rows (the final chunk may be shorter). -/
def chunksOf (c : ℕ) : List α → List (List α)
  | [] => []
  | a :: rest => (a :: rest.take (c - 1)) :: chunksOf c (rest.drop (c - 1))
termination_by l => l.length
decreasing_by
  simp only [List.length_cons, List.length_drop]
  omega

/-- `CSVProcessor._process_chunk`, sample output: rows yielding a
record are kept in order (`_extract_row_data` is total here, so the
per-row `except` path contributes no errors). -/
def processChunk (columnMapping : List (String × String))
    (rows : List (String → Option String)) : List SampleRec :=
  rows.filterMap (fun row => extractRowData row columnMapping)

/-- The chunk loop of `CSVProcessor.process_file`: each chunk is
processed independently and its samples appended to the running
result. -/
def processCsvRows (chunkSize : ℕ) (columnMapping : List (String × String))
    (rows : List (String → Option String)) : List SampleRec :=
  (chunksOf chunkSize rows).flatMap (processChunk columnMapping)

/-! ## build-context-submission structured-table extractor

Embeds `PDFProcessor._extract_table_rows` of
`src/build-context-submission/app/services/pdf_processor.py`.
A raw table is the rows-of-cells value `page.extract_tables()` yields:
cells are `Option String` (`none` for a `None` cell).  A page is its
table list (a page whose `extract_tables` raised contributes `[]`). -/

/-- A raw table cell. -/
abbrev Cell := Option String

/-- A raw table row. -/
abbrev RawRow := List Cell

/-- A raw table. -/
abbrev RawTable := List RawRow

/-- `header_map_candidates` (the `µ` below is U+00B5, as in the
source). -/
def headerMapCandidates : List (String × List String) :=
  [("sample_name", ["sample name", "sample id", "sample", "name", "id"]),
   ("volume", ["volume", "vol", "µl", "ul"]),
   ("nanodrop_conc",
    ["nanodrop", "nanodrop conc", "nd conc", "nd (ng/µl)", "nanodrop (ng/µl)"]),
   ("qubit_conc", ["qubit", "qubit conc", "qubit (ng/µl)"]),
   ("a260_280", ["a260/280", "260/280", "a260-280", "ratio 260/280", "260-280"]),
   ("a260_230", ["a260/230", "260/230", "a260-230", "ratio 260/230", "260-230"])]

/-- The header labels that mark a data row as a re-detected header row
bleeding into the data (`sample_name.lower() in (...)`). -/
def headerLikeNames : List String := ["sample", "sample name", "name", "id"]

/-- `normalize`: strip, lowercase, and normalize the micro sign (the
source's `replace('µ', 'µ')` maps U+00B5 to itself). -/
def normalize (s : String) : String :=
  replaceStr (lowerStr (trimStr s)) "µ" "µ"

/-- The normalized header row: `normalize(h or '')` per header cell of
the table's first row. -/
def headerNorm (tbl : RawTable) : List String :=
  (tbl.headD []).map (fun c => normalize (c.getD ""))

/-- The `col_map` build: for one canonical key, the first header column
containing one of its candidate substrings. -/
def colIdx (header : List String) (cands : List String) : Option ℕ :=
  header.findIdx? (fun h => cands.any (fun c => strSub h c))

/-- `col_map` as a function of the canonical key. -/
def colMapOf (header : List String) (key : String) : Option ℕ :=
  match (headerMapCandidates.lookup key) with
  | none => none
  | some cands => colIdx header cands

/-- `get_val`: the resolved column's raw cell, stripped; `none` when
the key is unresolved, the index is out of range, or the cell is
`None`. -/
def getVal (raw : RawRow) (idx : Option ℕ) : Option String :=
  match idx with
  | none => none
  | some i =>
    match raw.get? i with
    | none => none
    | some none => none
    | some (some cell) => some (trimStr cell)

/-- The cleaning step of `to_float`: lowercase, remove the unit
substrings `ng/µl` (U+00B5) and `ng/ul` and all commas, then strip. -/
def cleanNumCell (s : String) : String :=
  trimStr (replaceStr (replaceStr (replaceStr (lowerStr s) "ng/µl" "")
    "ng/ul" "") "," "")

/-- `to_float`: `None`/empty cells give `none`; otherwise the cleaned
cell is float-parsed, a parse failure giving `none` (the `except`
branch). -/
def to_float (v : Option String) : Option ℚ :=
  match v with
  | none => none
  | some s =>
    if s = "" then none
    else pyFloat? (cleanNumCell s)

/-- The structured table row `row_obj` (dict keys in source order;
`sample_index` is an `Option` because the skip heuristic tests each
non-name dict value against `None`, `sample_index` included). -/
structure TableRow where
  sample_name : String
  volume : Option ℚ
  nanodrop_conc : Option ℚ
  qubit_conc : Option ℚ
  a260_280 : Option ℚ
  a260_230 : Option ℚ
  sample_index : Option ℕ
deriving DecidableEq

/-- `sample_name = get_val(...) or ''` for a data row under a resolved
column map. -/
def nameOf (cmap : String → Option ℕ) (raw : RawRow) : String :=
  (getVal raw (cmap "sample_name")).getD ""

/-- Python `all((cell is None or str(cell).strip() == '') for cell in
raw_row)`. -/
def rawAllEmpty (raw : RawRow) : Bool :=
  raw.all (fun cell => trimStr (cell.getD "") = "")

/-- The `row_obj` built for the data row at 1-based table position `i`. -/
def mkRow (cmap : String → Option ℕ) (i : ℕ) (raw : RawRow) : TableRow :=
  { sample_name := nameOf cmap raw,
    volume := to_float (getVal raw (cmap "volume")),
    nanodrop_conc := to_float (getVal raw (cmap "nanodrop_conc")),
    qubit_conc := to_float (getVal raw (cmap "qubit_conc")),
    a260_280 := to_float (getVal raw (cmap "a260_280")),
    a260_230 := to_float (getVal raw (cmap "a260_230")),
    sample_index := some i }

/-- The data-row loop `for i, raw_row in enumerate(tbl[1:], start=1)`
of an accepted table: skip empty raw rows, skip header-like names,
build `row_obj`, and apply the final skip-empty heuristic (whose
`sample_index` conjunct can never hold). -/
def rowsGo (cmap : String → Option ℕ) (i : ℕ) : List RawRow → List TableRow
  | [] => []
  | raw :: rest =>
    if raw = [] ∨ rawAllEmpty raw then rowsGo cmap (i + 1) rest
    else if (lowerStr (nameOf cmap raw)) ∈ headerLikeNames then
      rowsGo cmap (i + 1) rest
    else
      let row := mkRow cmap i raw
      if row.sample_name = "" ∧ row.volume = none ∧
          row.nanodrop_conc = none ∧ row.qubit_conc = none ∧
          row.a260_280 = none ∧ row.a260_230 = none ∧
          row.sample_index = none then
        rowsGo cmap (i + 1) rest
      else row :: rowsGo cmap (i + 1) rest

/-- One table of `_extract_table_rows`: tables with fewer than two rows
are skipped, the header is normalized and mapped, a table without a
resolved `sample_name` column is skipped whole, and the data rows are
scanned from position 1. -/
def processTable (tbl : RawTable) : List TableRow :=
  match tbl with
  | [] => []
  | header :: dataRows =>
    if dataRows = [] then []
    else
      let hdr := header.map (fun c => normalize (c.getD ""))
      if (colMapOf hdr "sample_name").isNone then []
      else rowsGo (colMapOf hdr) 1 dataRows

/-- `PDFProcessor._extract_table_rows`: pages beyond `max_pages` are
not examined; each page's tables are processed in order and the rows
concatenated. -/
def extractTableRows (maxPages : ℕ) (pages : List (List RawTable)) :
    List TableRow :=
  ((pages.take maxPages).flatMap id).flatMap processTable

/-! ## Theorems -/

theorem mergeAi_step_preserves (m : List (String × PyVal)) (kv : String × PyVal)
    (k : String) (h : otruthy (m.lookup k) = true) :
    (if otruthy (m.lookup kv.1) = false ∧ kv.2.truthy then dset m kv.1 kv.2
      else m).lookup k = m.lookup k := by
  by_cases hc : otruthy (m.lookup kv.1) = false ∧ kv.2.truthy
  · rw [if_pos hc]
    by_cases hk : kv.1 = k
    · rw [hk] at hc
      rw [h] at hc
      simp at hc
    · exact lookup_dset_ne m kv.1 k kv.2 (Ne.symm hk)
  · rw [if_neg hc]

theorem mergeAi_lookup_of_truthy (ai : List (String × PyVal)) :
    ∀ (fields : List (String × PyVal)) (k : String),
      otruthy (fields.lookup k) = true →
      (mergeAi fields ai).lookup k = fields.lookup k := by
  induction ai with
  | nil => intro fields k _; rfl
  | cons kv rest ih =>
    intro fields k h
    have hstep := mergeAi_step_preserves fields kv k h
    have h' : otruthy ((if otruthy (fields.lookup kv.1) = false ∧ kv.2.truthy
        then dset fields kv.1 kv.2 else fields).lookup k) = true := by
      rw [hstep]; exact h
    calc (mergeAi fields (kv :: rest)).lookup k
        = (mergeAi (if otruthy (fields.lookup kv.1) = false ∧ kv.2.truthy
            then dset fields kv.1 kv.2 else fields) rest).lookup k := rfl
      _ = _ := by rw [ih _ k h', hstep]

/-- Claim C8: merging AI-extracted fields into the heuristic result
changes only fields the heuristics left unpopulated: every field whose
heuristic value is truthy keeps that value after the merge, and a field
whose merged value differs from its heuristic value must have had a
falsy (unpopulated) heuristic value. -/
theorem ai_merge_preserves_heuristic_fields
    (fields ai : List (String × PyVal)) (k : String) :
    (otruthy (fields.lookup k) = true →
      (mergeAi fields ai).lookup k = fields.lookup k) ∧
    ((mergeAi fields ai).lookup k ≠ fields.lookup k →
      otruthy (fields.lookup k) = false) := by
  constructor
  · exact mergeAi_lookup_of_truthy ai fields k
  · intro hne
    by_cases h : otruthy (fields.lookup k) = true
    · exact absurd (mergeAi_lookup_of_truthy ai fields k h) hne
    · simpa using h

/-- Witness for C8: a heuristic `sample_name` survives an AI value for
the same field. -/
theorem ai_merge_preserves_heuristic_fields_witness :
    (mergeAi [("sample_name", .s "HTSF-1")]
      [("sample_name", .s "AI-GUESS"), ("organism", .s "E. coli")]).lookup
        "sample_name" = some (.s "HTSF-1") :=
  (ai_merge_preserves_heuristic_fields [("sample_name", .s "HTSF-1")]
    [("sample_name", .s "AI-GUESS"), ("organism", .s "E. coli")]
    "sample_name").1 (by decide)

theorem dedupGo_mem (r : TextTableRow) :
    ∀ (l : List TextTableRow) (seen : List String),
      r ∈ dedupGo seen l ↔
        r.sample_name ≠ "" ∧ r.sample_name ∉ seen ∧
          l.find? (fun s => s.sample_name == r.sample_name) = some r := by
  intro l
  induction l with
  | nil => intro seen; simp [dedupGo]
  | cons s rest ih =>
    intro seen
    by_cases hc : s.sample_name ≠ "" ∧ s.sample_name ∉ seen
    · rw [show dedupGo seen (s :: rest) =
          s :: dedupGo (s.sample_name :: seen) rest by rw [dedupGo, if_pos hc]]
      by_cases hname : s.sample_name = r.sample_name
      · have hfind : (s :: rest).find?
            (fun s' => s'.sample_name == r.sample_name) = some s := by
          simp [List.find?, hname]
        rw [hfind]
        simp only [List.mem_cons, ih]
        constructor
        · rintro (rfl | ⟨h1, h2, h3⟩)
          · exact ⟨hname ▸ hc.1, hname ▸ hc.2, rfl⟩
          · exact absurd (Or.inl hname.symm) h2
        · rintro ⟨h1, h2, h3⟩
          exact Or.inl (Option.some.inj h3).symm
      · have hfind : (s :: rest).find?
            (fun s' => s'.sample_name == r.sample_name) =
            rest.find? (fun s' => s'.sample_name == r.sample_name) := by
          simp [List.find?, beq_false_of_ne hname]
        rw [hfind]
        simp only [List.mem_cons, ih]
        constructor
        · rintro (rfl | ⟨h1, h2, h3⟩)
          · exact absurd rfl hname
          · exact ⟨h1, fun hmem => h2 (Or.inr hmem), h3⟩
        · rintro ⟨h1, h2, h3⟩
          refine Or.inr ⟨h1, fun hmem => ?_, h3⟩
          rcases hmem with heq | hmem'
          · exact hname heq.symm
          · exact h2 hmem'
    · rw [show dedupGo seen (s :: rest) = dedupGo seen rest by
          rw [dedupGo, if_neg hc]]
      push_neg at hc
      by_cases hname : s.sample_name = r.sample_name
      · have hfind : (s :: rest).find?
            (fun s' => s'.sample_name == r.sample_name) = some s := by
          simp [List.find?, hname]
        rw [ih, hfind]
        constructor
        · rintro ⟨h1, h2, h3⟩
          by_cases hemp : s.sample_name = ""
          · exact absurd (hname ▸ hemp) h1
          · exact absurd (hname ▸ hc hemp) h2
        · rintro ⟨h1, h2, h3⟩
          have : s = r := Option.some.inj h3
          subst this
          by_cases hemp : s.sample_name = ""
          · exact absurd hemp h1
          · exact absurd (hc hemp) h2
      · have hfind : (s :: rest).find?
            (fun s' => s'.sample_name == r.sample_name) =
            rest.find? (fun s' => s'.sample_name == r.sample_name) := by
          simp [List.find?, beq_false_of_ne hname]
        rw [ih, hfind]

theorem dedupGo_names_nodup :
    ∀ (l : List TextTableRow) (seen : List String),
      ((dedupGo seen l).map (fun r => r.sample_name)).Nodup ∧
      ∀ n ∈ (dedupGo seen l).map (fun r => r.sample_name), n ∉ seen := by
  intro l
  induction l with
  | nil => intro seen; simp [dedupGo]
  | cons s rest ih =>
    intro seen
    by_cases hc : s.sample_name ≠ "" ∧ s.sample_name ∉ seen
    · rw [show dedupGo seen (s :: rest) =
          s :: dedupGo (s.sample_name :: seen) rest by rw [dedupGo, if_pos hc]]
      obtain ⟨hnd, hout⟩ := ih (s.sample_name :: seen)
      refine ⟨List.nodup_cons.mpr ⟨fun hmem => ?_, hnd⟩, ?_⟩
      · exact hout _ hmem (List.mem_cons_self _ _)
      · intro n hn
        rcases List.mem_cons.mp hn with rfl | hn'
        · exact hc.2
        · exact fun hs => hout n hn' (List.mem_cons_of_mem _ hs)
    · rw [show dedupGo seen (s :: rest) = dedupGo seen rest by
          rw [dedupGo, if_neg hc]]
      exact ih seen

/-- Claim C10: the text-based sample-table extractor deduplicates by
`sample_name`: the output names are pairwise distinct, no output row
has an empty name, and a row is in the output exactly when its name is
non-empty and it is the first collected row bearing that name (in
pattern-priority then match order of the collected list). -/
theorem text_table_dedup_by_sample_name (collected : List TextTableRow) :
    ((extractSampleTable collected).map (fun r => r.sample_name)).Nodup ∧
    (∀ r ∈ extractSampleTable collected, r.sample_name ≠ "") ∧
    (∀ r, r ∈ extractSampleTable collected ↔
      r.sample_name ≠ "" ∧
        collected.find? (fun s => s.sample_name == r.sample_name) = some r) := by
  refine ⟨(dedupGo_names_nodup collected []).1, ?_, ?_⟩
  · intro r hr
    exact ((dedupGo_mem r collected []).mp hr).1
  · intro r
    rw [extractSampleTable, dedupGo_mem r collected []]
    simp

/-- Witness for C10: with two collected `A` rows and an empty-name row,
the first `A` row is kept. -/
theorem text_table_dedup_by_sample_name_witness :
    ({ sample_name := "A" } : TextTableRow) ∈
      extractSampleTable
        [{ sample_name := "A" }, { sample_name := "A", volume := some 2 },
         { sample_name := "" }] :=
  ((text_table_dedup_by_sample_name
      [{ sample_name := "A" }, { sample_name := "A", volume := some 2 },
       { sample_name := "" }]).2.2 { sample_name := "A" }).mpr (by decide)

theorem chunksOf_join_of_le {α : Type} (c : ℕ) :
    ∀ (n : ℕ) (l : List α), l.length ≤ n → (chunksOf c l).flatMap id = l := by
  intro n
  induction n with
  | zero =>
    intro l h
    have : l = [] := List.length_eq_zero.mp (Nat.le_zero.mp h)
    subst this
    simp [chunksOf]
  | succ n ih =>
    intro l h
    cases l with
    | nil => simp [chunksOf]
    | cons a rest =>
      rw [chunksOf]
      simp only [List.flatMap_cons, id]
      rw [ih (rest.drop (c - 1)) (by simp at h ⊢; omega)]
      simp [List.cons_append, List.take_append_drop]

theorem chunksOf_join {α : Type} (c : ℕ) (l : List α) :
    (chunksOf c l).flatMap id = l :=
  chunksOf_join_of_le c l.length l (Nat.le_refl _)

theorem flatMap_filterMap_eq {α β : Type} (f : α → Option β) :
    ∀ (L : List (List α)),
      L.flatMap (fun ch => ch.filterMap f) = (L.flatMap id).filterMap f := by
  intro L
  induction L with
  | nil => simp
  | cons ch rest ih => simp [List.filterMap_append, ih]

/-- Claim C9: for a fixed CSV with at least one mapped column, chunked
processing with any chunk size `c ≥ 1` yields exactly the records (in
row order) that a single pass over all rows yields: each row is
accepted or skipped independently of its chunk. -/
theorem csv_chunk_size_independence (c : ℕ)
    (columnMapping : List (String × String))
    (rows : List (String → Option String)) (hc : 1 ≤ c)
    (hm : columnMapping ≠ []) :
    processCsvRows c columnMapping rows =
      rows.filterMap (fun row => extractRowData row columnMapping) := by
  rw [processCsvRows,
    show processChunk columnMapping =
      (fun ch => ch.filterMap (fun row => extractRowData row columnMapping))
      from rfl,
    flatMap_filterMap_eq, chunksOf_join]

/-- Witness for C9: chunk size 2 over three rows equals the one-pass
result on a mapping with one mapped column. -/
theorem csv_chunk_size_independence_witness :
    processCsvRows 2 [("sample_name", "n")]
        [fun col => if col = "n" then some "A" else none,
         fun _ => none,
         fun col => if col = "n" then some "B" else none] =
      List.filterMap
        (fun row => extractRowData row [("sample_name", "n")])
        [fun col => if col = "n" then some "A" else none,
         fun _ => none,
         fun col => if col = "n" then some "B" else none] :=
  csv_chunk_size_independence 2 [("sample_name", "n")] _ (by decide) (by decide)

/-- Claim C4: a structured table contributes rows only when its
normalized header resolved a `sample_name` column: an unresolved table
is skipped whole, and every emitted `TableRow` originates from a table
whose `sample_name` column index is resolved. -/
theorem table_rows_require_sample_name_column :
    (∀ tbl : RawTable, colMapOf (headerNorm tbl) "sample_name" = none →
      processTable tbl = []) ∧
    (∀ (maxPages : ℕ) (pages : List (List RawTable)) (r : TableRow),
      r ∈ extractTableRows maxPages pages →
      ∃ tbl ∈ (pages.take maxPages).flatMap id,
        r ∈ processTable tbl ∧
          (colMapOf (headerNorm tbl) "sample_name").isSome) := by
  have habandon : ∀ tbl : RawTable,
      colMapOf (headerNorm tbl) "sample_name" = none → processTable tbl = [] := by
    intro tbl hnone
    cases tbl with
    | nil => rfl
    | cons header dataRows =>
      have hh : headerNorm (header :: dataRows) =
          header.map (fun cc => normalize (cc.getD "")) := rfl
      rw [hh] at hnone
      by_cases hd : dataRows = []
      · rw [processTable, if_pos hd]
      · rw [processTable, if_neg hd, if_pos (by rw [hnone]; rfl)]
  refine ⟨habandon, ?_⟩
  intro maxPages pages r hr
  rw [extractTableRows] at hr
  obtain ⟨tbl, htbl, hrt⟩ := List.mem_flatMap.mp hr
  refine ⟨tbl, htbl, hrt, ?_⟩
  by_cases hs : (colMapOf (headerNorm tbl) "sample_name").isSome
  · exact hs
  · rw [habandon tbl (Option.not_isSome_iff_eq_none.mp hs)] at hrt
    exact absurd hrt (List.not_mem_nil r)

/-- The HTSF six-column table used as the C4 witness input. -/
def c4Table : RawTable :=
  [[some "Sample Name", some "Volume", some "Qubit", some "Nanodrop",
    some "260/280", some "260/230"],
   [some "JL-147-001", some "50", some "150", some "140", some "1", some "2"]]

/-- Witness for C4: the HTSF six-column table emits its data row, and
that row's table resolved the `sample_name` column. -/
theorem table_rows_require_sample_name_column_witness :
    ∃ tbl ∈ ([[c4Table]].take 1000).flatMap id,
      (⟨"JL-147-001", some 50, some 140, some 150, some 1, some 2,
          some 1⟩ : TableRow) ∈ processTable tbl ∧
        (colMapOf (headerNorm tbl) "sample_name").isSome :=
  table_rows_require_sample_name_column.2 1000 [[c4Table]] _ (by decide)

/-- Counterexample to C5 as stated: in an accepted table (the
`sample_name` column resolves), the data row `["sample", "50"]` has a
placeholder name and a non-empty other field, so the claim says it is
emitted — but `_extract_table_rows` skips every header-like
(placeholder) name unconditionally and emits nothing. -/
theorem table_row_placeholder_skip_counterexample :
    processTable [[some "Sample Name", some "Volume"],
        [some "sample", some "50"]] = [] ∧
    (colMapOf (headerNorm [[some "Sample Name", some "Volume"],
        [some "sample", some "50"]]) "sample_name").isSome ∧
    rawAllEmpty [some "sample", some "50"] = false := by
  decide

/-- Claim C5 amended: within an accepted table, a data row whose
`sample_name` is a header-like placeholder is skipped unconditionally;
a raw row that is entirely empty is skipped; and a non-placeholder row
with an empty `sample_name` is emitted whenever its raw row has any
non-empty cell — even when every other extracted field is null,
because the skip-empty heuristic's conjunct on `sample_index` (always
set to the row position) can never hold. -/
theorem table_row_skip_rules (cmap : String → Option ℕ) (i : ℕ)
    (raw : RawRow) (rest : List RawRow) :
    ((raw = [] ∨ rawAllEmpty raw = true) →
      rowsGo cmap i (raw :: rest) = rowsGo cmap (i + 1) rest) ∧
    (lowerStr (nameOf cmap raw) ∈ headerLikeNames →
      rowsGo cmap i (raw :: rest) = rowsGo cmap (i + 1) rest) ∧
    (raw ≠ [] → rawAllEmpty raw = false → nameOf cmap raw = "" →
      rowsGo cmap i (raw :: rest) =
        mkRow cmap i raw :: rowsGo cmap (i + 1) rest) := by
  refine ⟨?_, ?_, ?_⟩
  · intro h
    rw [rowsGo, if_pos (by rcases h with h | h
                           · exact Or.inl h
                           · exact Or.inr h)]
  · intro h
    by_cases hemp : raw = [] ∨ rawAllEmpty raw
    · rw [rowsGo, if_pos hemp]
    · rw [rowsGo, if_neg hemp, if_pos h]
  · intro hne hemp hname
    rw [rowsGo, if_neg (by simp [hne, hemp]), if_neg (by
      rw [hname]
      decide)]
    rw [if_neg (by simp [mkRow])]

/-- Witness for C5 (amended): a row with an empty name cell, an
unparsable volume cell, and nothing else is still emitted. -/
theorem table_row_skip_rules_witness :
    rowsGo (fun k => if k = "sample_name" then some 0 else some 1) 1
        [[some "", some "n/a"]] =
      mkRow (fun k => if k = "sample_name" then some 0 else some 1) 1
          [some "", some "n/a"] ::
        rowsGo (fun k => if k = "sample_name" then some 0 else some 1) 2 [] :=
  (table_row_skip_rules (fun k => if k = "sample_name" then some 0 else some 1)
    1 [some "", some "n/a"] []).2.2 (by decide) (by decide) (by decide)

theorem pdfStep_lookup_none (acc : List (String × PyVal))
    (fv : String × String) (f : String) (hf : f ∈ numericFields)
    (hacc : acc.lookup f = none)
    (hv : fv.1 = f → pyFloat? (trimStr fv.2) = none) :
    (pdfStep acc fv).lookup f = none := by
  by_cases h1 : fv.1 ∈ numericFields
  · rcases hq : pyFloat? (trimStr fv.2) with _ | q
    · simp only [pdfStep, if_pos h1, hq]
      exact hacc
    · have hne : fv.1 ≠ f := by
        intro heq
        rw [hv heq] at hq
        exact Option.noConfusion hq
      simp only [pdfStep, if_pos h1, hq]
      rw [lookup_dset_ne _ _ _ _ (Ne.symm hne)]
      exact hacc
  · have hne : fv.1 ≠ f := fun heq => h1 (heq ▸ hf)
    simp only [pdfStep, if_neg h1]
    rw [lookup_dset_ne _ _ _ _ (Ne.symm hne)]
    exact hacc

theorem buildPdfData_foldl_none (f : String) (hf : f ∈ numericFields) :
    ∀ (ms : List (String × String)) (acc : List (String × PyVal)),
      (∀ v, (f, v) ∈ ms → pyFloat? (trimStr v) = none) →
      acc.lookup f = none → (ms.foldl pdfStep acc).lookup f = none := by
  intro ms
  induction ms with
  | nil => intro acc _ h; exact h
  | cons fv rest ih =>
    intro acc hms hacc
    rw [List.foldl_cons]
    refine ih _ (fun v hv => hms v (List.mem_cons_of_mem _ hv)) ?_
    refine pdfStep_lookup_none acc fv f hf hacc (fun heq => ?_)
    refine hms fv.2 ?_
    rw [← heq, Prod.mk.eta]
    exact List.mem_cons_self _ _

theorem csvStep_lookup_none (row : String → Option String)
    (acc : List (String × PyVal)) (fc : String × String) (f : String)
    (hf : f ∈ numericFields) (hacc : acc.lookup f = none)
    (hv : fc.1 = f → ∀ v, row fc.2 = some v → pyFloat? v = none) :
    (csvStep row acc fc).lookup f = none := by
  rcases hrow : row fc.2 with _ | value
  · simp only [csvStep, hrow]
    exact hacc
  · by_cases h1 : fc.1 ∈ numericFields
    · rcases hq : pyFloat? value with _ | q
      · simp only [csvStep, hrow, if_pos h1, hq]
        exact hacc
      · have hne : fc.1 ≠ f := by
          intro heq
          rw [hv heq value hrow] at hq
          exact Option.noConfusion hq
        simp only [csvStep, hrow, if_pos h1, hq]
        rw [lookup_dset_ne _ _ _ _ (Ne.symm hne)]
        exact hacc
    · have hne : fc.1 ≠ f := fun heq => h1 (heq ▸ hf)
      simp only [csvStep, hrow, if_neg h1]
      rw [lookup_dset_ne _ _ _ _ (Ne.symm hne)]
      exact hacc

theorem buildCsvData_foldl_none (row : String → Option String) (f : String)
    (hf : f ∈ numericFields) :
    ∀ (mapping : List (String × String)) (acc : List (String × PyVal)),
      (∀ col, (f, col) ∈ mapping → ∀ v, row col = some v →
        pyFloat? v = none) →
      acc.lookup f = none → (mapping.foldl (csvStep row) acc).lookup f = none := by
  intro mapping
  induction mapping with
  | nil => intro acc _ h; exact h
  | cons fc rest ih =>
    intro acc hm hacc
    rw [List.foldl_cons]
    refine ih _ (fun col hcol v hv => hm col (List.mem_cons_of_mem _ hcol) v hv) ?_
    refine csvStep_lookup_none row acc fc f hf hacc (fun heq v hv => ?_)
    refine hm fc.2 ?_ v hv
    rw [← heq, Prod.mk.eta]
    exact List.mem_cons_self _ _

/-- Claim C6: numeric coercion is exception-free and null-on-failure.
The table-cell cleaner strips the unit substrings `ng/µl` and `ng/ul`
and commas before float parsing and `to_float` yields null when the
cleaned cell fails to parse; the pattern-library path leaves a numeric
field unset (null) when its captured value fails to parse; and the CSV
path leaves a numeric field unset (null) when its mapped cells fail to
parse. -/
theorem numeric_coercion_null_on_failure :
    (∀ s : String, pyFloat? (cleanNumCell s) = none →
      to_float (some s) = none) ∧
    (cleanNumCell "1,234.5 NG/UL" = "1234.5" ∧
      to_float (some "1,234 ng/ul") = some 1234 ∧
      to_float (some "150 ng/µl") = some 150 ∧
      to_float (some "abc") = none) ∧
    (∀ (fieldMatches : List (String × String)) (f : String),
      f ∈ numericFields →
      (∀ v, (f, v) ∈ fieldMatches → pyFloat? (trimStr v) = none) →
      (buildPdfData fieldMatches).lookup f = none) ∧
    (∀ (row : String → Option String) (mapping : List (String × String))
        (f : String), f ∈ numericFields →
      (∀ col, (f, col) ∈ mapping → ∀ v, row col = some v →
        pyFloat? v = none) →
      (buildCsvData row mapping).lookup f = none) := by
  refine ⟨?_, by decide, ?_, ?_⟩
  · intro s hnone
    by_cases hs : s = ""
    · simp [to_float, hs]
    · simp only [to_float, if_neg hs]
      exact hnone
  · intro fm f hf hms
    exact buildPdfData_foldl_none f hf fm [] hms rfl
  · intro row mapping f hf hm
    exact buildCsvData_foldl_none row f hf mapping [] hm rfl

/-- Witness for C6: the non-numeric cell `"n/a"`, the pattern capture
`"abc"`, and a CSV concentration cell `"abc"` all coerce to null. -/
theorem numeric_coercion_null_on_failure_witness :
    to_float (some "n/a") = none ∧
    (buildPdfData [("concentration", "abc")]).lookup "concentration" = none ∧
    (buildCsvData (fun col => if col = "Conc" then some "abc" else none)
      [("concentration", "Conc")]).lookup "concentration" = none := by
  refine ⟨?_, ?_, ?_⟩
  · exact numeric_coercion_null_on_failure.1 "n/a" (by decide)
  · refine numeric_coercion_null_on_failure.2.2.1 [("concentration", "abc")]
      "concentration" (by decide) ?_
    intro v hv
    simp only [List.mem_singleton, Prod.mk.injEq] at hv
    rw [hv.2]
    decide
  · refine numeric_coercion_null_on_failure.2.2.2
      (fun col => if col = "Conc" then some "abc" else none)
      [("concentration", "Conc")] "concentration" (by decide) ?_
    intro col hcol v hv
    simp only [List.mem_singleton, Prod.mk.injEq] at hcol
    obtain ⟨-, rfl⟩ := hcol
    simp at hv
    rw [← hv]
    decide

/-- Claim C1: every record the assembler returns (PDF pattern path or
CSV row path) has `sample_name`, `submitter_name` and `submitter_email`
present (never null); a missing `sample_name` is defaulted to the
`quote_identifier` value when present and to `"Unknown"` otherwise
(plain `"Unknown"` on the CSV path), a missing `submitter_name` to
`"Unknown"`, and a missing `submitter_email` to
`"unknown@example.com"`. -/
theorem sample_record_identity_defaults :
    (∀ (fieldMatches : List (String × String))
        (tableRows : List TextTableRow) (metaPairs : List (String × String))
        (rec : SampleRec),
      extractSampleData fieldMatches tableRows metaPairs = some rec →
      ((rec.fields.lookup "sample_name").isSome ∧
        (rec.fields.lookup "submitter_name").isSome ∧
        (rec.fields.lookup "submitter_email").isSome) ∧
      ((buildPdfData fieldMatches).lookup "sample_name" = none →
        rec.fields.lookup "sample_name" =
          some (((buildPdfData fieldMatches).lookup "quote_identifier").getD
            (.s "Unknown"))) ∧
      ((buildPdfData fieldMatches).lookup "submitter_name" = none →
        rec.fields.lookup "submitter_name" = some (.s "Unknown")) ∧
      ((buildPdfData fieldMatches).lookup "submitter_email" = none →
        rec.fields.lookup "submitter_email" =
          some (.s "unknown@example.com"))) ∧
    (∀ (row : String → Option String) (mapping : List (String × String))
        (rec : SampleRec),
      extractRowData row mapping = some rec →
      ((rec.fields.lookup "sample_name").isSome ∧
        (rec.fields.lookup "submitter_name").isSome ∧
        (rec.fields.lookup "submitter_email").isSome) ∧
      ((buildCsvData row mapping).lookup "sample_name" = none →
        rec.fields.lookup "sample_name" = some (.s "Unknown")) ∧
      ((buildCsvData row mapping).lookup "submitter_name" = none →
        rec.fields.lookup "submitter_name" = some (.s "Unknown")) ∧
      ((buildCsvData row mapping).lookup "submitter_email" = none →
        rec.fields.lookup "submitter_email" =
          some (.s "unknown@example.com"))) := by
  constructor
  · intro fm tableRows metaPairs rec h
    simp only [extractSampleData] at h
    split at h
    case isFalse => exact absurd h (by simp)
    case isTrue hg =>
      have hrec := (Option.some.inj h).symm
      have hfields : rec.fields =
          dsetdefault (dsetdefault (dsetdefault (buildPdfData fm) "sample_name"
              (((buildPdfData fm).lookup "quote_identifier").getD (.s "Unknown")))
            "submitter_name" (.s "Unknown"))
            "submitter_email" (.s "unknown@example.com") := by
        rw [hrec]
      rw [hfields]
      refine ⟨⟨?_, ?_, ?_⟩, ?_, ?_, ?_⟩
      · rw [lookup_dsetdefault_ne _ _ _ _ (by decide),
          lookup_dsetdefault_ne _ _ _ _ (by decide)]
        exact lookup_dsetdefault_isSome _ _ _
      · rw [lookup_dsetdefault_ne _ _ _ _ (by decide)]
        exact lookup_dsetdefault_isSome _ _ _
      · exact lookup_dsetdefault_isSome _ _ _
      · intro hnone
        rw [lookup_dsetdefault_ne _ _ _ _ (by decide),
          lookup_dsetdefault_ne _ _ _ _ (by decide)]
        exact lookup_dsetdefault_absent _ _ _ hnone
      · intro hnone
        rw [lookup_dsetdefault_ne _ _ _ _ (by decide)]
        refine lookup_dsetdefault_absent _ _ _ ?_
        rw [lookup_dsetdefault_ne _ _ _ _ (by decide)]
        exact hnone
      · intro hnone
        refine lookup_dsetdefault_absent _ _ _ ?_
        rw [lookup_dsetdefault_ne _ _ _ _ (by decide),
          lookup_dsetdefault_ne _ _ _ _ (by decide)]
        exact hnone
  · intro row mapping rec h
    simp only [extractRowData] at h
    split at h
    case isFalse => exact absurd h (by simp)
    case isTrue hg =>
      have hrec := (Option.some.inj h).symm
      have hfields : rec.fields =
          dsetdefault (dsetdefault (dsetdefault (buildCsvData row mapping)
              "sample_name" (.s "Unknown"))
            "submitter_name" (.s "Unknown"))
            "submitter_email" (.s "unknown@example.com") := by
        rw [hrec]
      rw [hfields]
      refine ⟨⟨?_, ?_, ?_⟩, ?_, ?_, ?_⟩
      · rw [lookup_dsetdefault_ne _ _ _ _ (by decide),
          lookup_dsetdefault_ne _ _ _ _ (by decide)]
        exact lookup_dsetdefault_isSome _ _ _
      · rw [lookup_dsetdefault_ne _ _ _ _ (by decide)]
        exact lookup_dsetdefault_isSome _ _ _
      · exact lookup_dsetdefault_isSome _ _ _
      · intro hnone
        rw [lookup_dsetdefault_ne _ _ _ _ (by decide),
          lookup_dsetdefault_ne _ _ _ _ (by decide)]
        exact lookup_dsetdefault_absent _ _ _ hnone
      · intro hnone
        rw [lookup_dsetdefault_ne _ _ _ _ (by decide)]
        refine lookup_dsetdefault_absent _ _ _ ?_
        rw [lookup_dsetdefault_ne _ _ _ _ (by decide)]
        exact hnone
      · intro hnone
        refine lookup_dsetdefault_absent _ _ _ ?_
        rw [lookup_dsetdefault_ne _ _ _ _ (by decide),
          lookup_dsetdefault_ne _ _ _ _ (by decide)]
        exact hnone

/-- The record the assembler returns for a PDF whose only match is a
submitter name (input of the C1 witness). -/
def c1rec : SampleRec :=
  { fields := [("submitter_name", .s "Dr X"), ("sample_name", .s "Unknown"),
      ("submitter_email", .s "unknown@example.com")] }

/-- Witness for C1: with only `submitter_name` matched, the returned
record carries all three identity fields, defaulted. -/
theorem sample_record_identity_defaults_witness :
    (c1rec.fields.lookup "sample_name").isSome ∧
    (c1rec.fields.lookup "submitter_name").isSome ∧
    (c1rec.fields.lookup "submitter_email").isSome :=
  (sample_record_identity_defaults.1 [("submitter_name", "Dr X")] [] [] c1rec
    (by decide)).1

/-- Counterexample to C3 as stated: the primary backend collects page
text `"A"`, then raises; the secondary yields `"B"`.  The joined text
is `"A\n\nB"` — the primary's pre-error page stays in the output, so
the result is a mixture, equal to neither the primary-alone (`"A"`)
nor the secondary-alone (`"B"`) outcome. -/
theorem text_extraction_backend_mixing_counterexample :
    (extractTextOptimized 1000 (.failAfter 1 ["A"]) (.ok ["B"])).text =
      some "A\n\nB" ∧
    "A" ∈ (extractTextOptimized 1000 (.failAfter 1 ["A"]) (.ok ["B"])).parts ∧
    (extractTextOptimized 1000 (.ok ["A"]) (.ok ["B"])).text = some "A" ∧
    (extractTextOptimized 1000 (.failAfter 0 []) (.ok ["B"])).text =
      some "B" := by
  decide

/-- Claim C3 amended: `text_parts` is not reset on a primary-backend
error, so after such an error the output is the primary's collected
page texts followed by the secondary backend's (truncated, truthy)
pages — a mixture whenever both are non-empty; a successful primary
run uses its pages alone, and if both backends raise, the error
propagates (no text). -/
theorem text_extraction_backend_mixing (maxPages p q : ℕ)
    (c pages2 d : List String) :
    ((extractTextOptimized maxPages (.failAfter p c) (.ok pages2)).parts =
      c ++ collectPages maxPages pages2 ∧
    (extractTextOptimized maxPages (.failAfter p c) (.ok pages2)).text =
      some (joinStr "\n\n" (c ++ collectPages maxPages pages2))) ∧
    (∀ pages, (extractTextOptimized maxPages (.ok pages) (.ok pages2)).parts =
      collectPages maxPages pages) ∧
    (extractTextOptimized maxPages (.failAfter p c) (.failAfter q d)).text =
      none :=
  ⟨⟨rfl, rfl⟩, fun _ => rfl, rfl⟩

/-- Counterexample to C7 as stated: a two-page document under
`max_pages = 1`, extracted through the secondary backend (the primary
raised at open): exactly one page is processed, yet no truncation
warning is emitted anywhere — the PyPDF2 loop truncates silently. -/
theorem truncation_warning_missing_counterexample :
    (extractTextOptimized 1 (.failAfter 0 []) (.ok ["A", "B"])).secondaryProcessed
        = 1 ∧
    PdfLog.truncWarn ∉
      (extractTextOptimized 1 (.failAfter 0 []) (.ok ["A", "B"])).logs ∧
    (extractTextOptimized 1 (.failAfter 0 []) (.ok ["A", "B"])).text =
      some "A" := by
  decide

/-- Claim C7 amended: under the primary backend, `N > max_pages` means
exactly `max_pages` pages are examined and a truncation warning is
logged, and `N ≤ max_pages` means all `N` pages are examined with no
warning; truncation never fails the extraction.  Under the secondary
fallback backend, `min N max_pages` pages are examined but truncation
is silent: no truncation warning is ever logged on that path. -/
theorem truncation_processing_and_warning (maxPages p : ℕ)
    (pages c pages2 : List String) (sec : BackendOutcome) :
    (pages.length > maxPages →
      (extractTextOptimized maxPages (.ok pages) sec).primaryProcessed =
          maxPages ∧
        PdfLog.truncWarn ∈ (extractTextOptimized maxPages (.ok pages) sec).logs) ∧
    (pages.length ≤ maxPages →
      (extractTextOptimized maxPages (.ok pages) sec).primaryProcessed =
          pages.length ∧
        PdfLog.truncWarn ∉ (extractTextOptimized maxPages (.ok pages) sec).logs) ∧
    (extractTextOptimized maxPages (.ok pages) sec).text ≠ none ∧
    ((extractTextOptimized maxPages (.failAfter p c) (.ok pages2)).secondaryProcessed
        = min pages2.length maxPages ∧
      PdfLog.truncWarn ∉
        (extractTextOptimized maxPages (.failAfter p c) (.ok pages2)).logs ∧
      (extractTextOptimized maxPages (.failAfter p c) (.ok pages2)).text ≠
        none) := by
  refine ⟨?_, ?_, ?_, rfl, ?_, ?_⟩
  · intro h
    constructor
    · simp only [extractTextOptimized]
      exact Nat.min_eq_right (Nat.le_of_lt h)
    · simp only [extractTextOptimized]
      rw [if_pos h]
      exact List.mem_singleton.mpr rfl
  · intro h
    constructor
    · simp only [extractTextOptimized]
      exact Nat.min_eq_left h
    · simp only [extractTextOptimized]
      rw [if_neg (Nat.not_lt.mpr h)]
      exact List.not_mem_nil _
  · simp [extractTextOptimized]
  · simp [extractTextOptimized]
  · simp [extractTextOptimized]

/-- Witness for C7 (amended): a two-page document with `max_pages = 1`
under the primary backend: one page processed and the truncation
warning logged. -/
theorem truncation_processing_and_warning_witness :
    (extractTextOptimized 1 (.ok ["A", "B"]) (.ok [])).primaryProcessed = 1 ∧
    PdfLog.truncWarn ∈ (extractTextOptimized 1 (.ok ["A", "B"]) (.ok [])).logs :=
  (truncation_processing_and_warning 1 0 ["A", "B"] [] [] (.ok [])).1
    (by decide)

/-- Counterexample to C2 as stated: a PDF whose text extraction yields
the empty string (no truthy page text) makes `process_file` return
`status=failed` with message `"No text content found in PDF"` — not
the claimed `completed` with an empty data list. -/
theorem empty_text_pdf_failed_counterexample :
    (processFilePdf (extractTextOptimized 1000 (.ok []) (.ok [])).text
        [] [] [] none "empty.pdf").status = .failed ∧
    (processFilePdf (extractTextOptimized 1000 (.ok []) (.ok [])).text
        [] [] [] none "empty.pdf").message = "No text content found in PDF" ∧
    (processFilePdf (extractTextOptimized 1000 (.ok []) (.ok [])).text
        [] [] [] none "empty.pdf").data = [] := by
  decide

/-- Claim C2 amended: for extracted text that is non-empty (e.g.
whitespace-only) on which the extraction heuristics find nothing and
the AI fallback returns nothing, `process_file` returns
`status=completed`, empty data, and the message `"PDF processed but no
sample data found"`; for extracted text that is empty, it returns
`status=failed` with message `"No text content found in PDF"`. -/
theorem whitespace_pdf_completed_no_sample_data :
    (∀ (t fn : String) (fieldMatches : List (String × String))
        (tableRows : List TextTableRow) (metaPairs : List (String × String)),
      t ≠ "" →
      extractSampleData fieldMatches tableRows metaPairs = none →
      processFilePdf (some t) fieldMatches tableRows metaPairs none fn =
        { status := .completed,
          message := "PDF processed but no sample data found",
          data := [], errors := [],
          warnings := ["No recognizable sample data patterns found"] }) ∧
    (∀ (fn : String) (fieldMatches : List (String × String))
        (tableRows : List TextTableRow) (metaPairs : List (String × String)),
      processFilePdf (some "") fieldMatches tableRows metaPairs none fn =
        { status := .failed, message := "No text content found in PDF",
          data := [],
          errors := ["PDF appears to be empty or contains only images"],
          warnings := [] }) := by
  constructor
  · intro t fn fm tableRows metaPairs ht hext
    simp only [processFilePdf, if_neg ht, hext]
  · intro fn fm tableRows metaPairs
    rfl

/-- Witness for C2 (amended): whitespace-only extracted text with no
matches completes with no sample data. -/
theorem whitespace_pdf_completed_no_sample_data_witness :
    processFilePdf (some " \n ") [] [] [] none "blank.pdf" =
      { status := .completed,
        message := "PDF processed but no sample data found",
        data := [], errors := [],
        warnings := ["No recognizable sample data patterns found"] } :=
  whitespace_pdf_completed_no_sample_data.1 " \n " "blank.pdf" [] [] []
    (by decide) (by decide)

end Nanopore
